import Mathlib

/-!
Verification development for the interview-simulator repository.

The repository's deterministic core is:
* `load_json_file` / `save_json_file` (main_interviewer_agent/agent.py) and
  `save_questions_to_file` (interview_planner_agent/agent.py): JSON file
  persistence with tagged status results;
* `update_session_append_answer` (main_interviewer_agent/agent.py): the
  session-merge operation on the answers list;
* the FastAPI handlers `run` / `run_sse` (server.py): agent-name dispatch.

Modelling decisions (shallow embedding):
* JSON documents are the inductive `Json` below.  Numbers are modelled as
  integers (`Int`); the repository's own logic never computes with numbers,
  it only stores them.
* Python dicts are association lists `List (String × Json)` preserving
  insertion order, exactly as CPython dicts and `json.load`/`json.dump` do.
* The file system is a map `FS := String → Option Json` from paths to the
  JSON document stored at that path.  Python's `json.dump` of a document
  followed by `json.load` of the same file yields an equal document (a
  property of the Python standard library, which is outside this
  repository), so a file holding valid JSON is modelled by the document
  itself.  A path with no file is `none`.
* `json.loads` applied to the incoming string argument is modelled by the
  executable parser `json_loads` below (strings, integers, booleans, null,
  arrays, objects; no floats and no \u escapes, which the repository never
  relies on).
-/

/-- A JSON document.  Objects are insertion-ordered key/value lists, as in
CPython dicts. -/
inductive Json where
  | null : Json
  | bool : Bool → Json
  | int : Int → Json
  | str : String → Json
  | arr : List Json → Json
  | obj : List (String × Json) → Json

/-- First-match lookup in a JSON object's key/value list; `d[k]`/`d.get(k)`
on a Python dict (dicts have unique keys, so first match is the match). -/
def jLookup : List (String × Json) → String → Option Json
  | [], _ => none
  | (k, v) :: rest, key => if k = key then some v else jLookup rest key

/-- `d[k] = v` on a Python dict: replace the value of an existing key in
place (keys keep their insertion position), append the pair when absent. -/
def jSetKey : List (String × Json) → String → Json → List (String × Json)
  | [], key, v => [(key, v)]
  | (k, w) :: rest, key, v =>
    if k = key then (k, v) :: rest else (k, w) :: jSetKey rest key v

/-- `d.get(k)` where `d` is an arbitrary JSON value: `none` unless `d` is an
object containing the key. -/
def jGet (j : Json) (key : String) : Option Json :=
  match j with
  | Json.obj kvs => jLookup kvs key
  | _ => none

/-- Python `str.strip()` whitespace test: space, tab, newline, carriage
return, vertical tab, form feed (the ASCII whitespace Python strips). -/
def isPySpace (c : Char) : Bool :=
  [' ', '\t', '\n', '\r', '\x0b', '\x0c'].contains c

/-- Python `str.strip()`: drop leading and trailing whitespace. -/
def pyStrip (s : String) : String :=
  String.mk (((s.toList.dropWhile isPySpace).reverse.dropWhile isPySpace).reverse)

/-- Python truthiness of the `Optional[str]` argument `followup_answer`:
`not followup_answer` is true exactly when it is `None` or the empty
string. -/
def pyFalsy : Option String → Bool
  | none => true
  | some s => s == ""

/-- The `record` dict built in `update_session_append_answer`
(main_interviewer_agent/agent.py lines 147–155), field for field:
`final_answer` is `(original_answer if not followup_answer else
original_answer + "\n\n" + followup_answer).strip()`. -/
def mkRecord (topic_id question_id original_answer : String)
    (followup_answer : Option String) (completeness : Json)
    (rating : Option Json) : Json :=
  Json.obj [
    ("topic_id", Json.str topic_id),
    ("question_id", Json.str question_id),
    ("original_answer", Json.str original_answer),
    ("followup_answer", match followup_answer with
      | none => Json.null
      | some s => Json.str s),
    ("final_answer", Json.str (pyStrip
      (if pyFalsy followup_answer then original_answer
       else original_answer ++ "\n\n" ++ followup_answer.getD ""))),
    ("completeness", completeness),
    ("rating", rating.getD Json.null)
  ]

/-- The test of `_find_idx`'s loop body: `rec.get("topic_id") == topic_id
and rec.get("question_id") == question_id`.  In Python, comparing a JSON
value against the string argument is true exactly when the value is that
string. -/
def recMatches (topic_id question_id : String) (rec : Json) : Bool :=
  (match jGet rec "topic_id" with
   | some (Json.str s) => s == topic_id
   | _ => false) &&
  (match jGet rec "question_id" with
   | some (Json.str s) => s == question_id
   | _ => false)

/-- The `_find_idx` helper of `update_session_append_answer`: index of the
first record matching (topic_id, question_id), scanning left to right.
A non-dict element raises `AttributeError` at `rec.get` in Python (caught
by the enclosing `except`, turning the whole call into an error result);
that is the `.error` case here. -/
def find_idx (topic_id question_id : String) :
    List Json → Nat → Except String (Option Nat)
  | [], _ => Except.ok none
  | rec :: rest, i =>
    match rec with
    | Json.obj kvs =>
      if recMatches topic_id question_id (Json.obj kvs) then
        Except.ok (some i)
      else
        find_idx topic_id question_id rest (i + 1)
    | _ => Except.error "AttributeError: record is not a dict"

/-- The file system: which JSON document, if any, is stored at each path. -/
def FS : Type := String → Option Json

/-- Writing a document to a path. -/
def fsSet (fs : FS) (path : String) (v : Json) : FS :=
  fun q => if q = path then some v else fs q

/-- A file system with no files. -/
def emptyFS : FS := fun _ => none

/-- Result of `update_session_append_answer`: `{"status": "success",
"data": session}` or `{"status": "error", "error_message": ...}`. -/
inductive UpdateResult where
  | success : Json → UpdateResult
  | error : String → UpdateResult

/-- The session dict created when the session file does not exist
(main_interviewer_agent/agent.py lines 134–138). -/
def initialSession : Json :=
  Json.obj [
    ("current_topic_index", Json.int 0),
    ("asked_followup_for_topic", Json.obj []),
    ("answers", Json.arr [])
  ]

/-- `update_session_append_answer` (main_interviewer_agent/agent.py lines
106–166): load the session from the file (or initialise an empty one),
find an existing record for (topic_id, question_id), replace it in place
or append the new record, write the session back, and return it.  Any
exception on the way (missing "answers" key, non-list answers value,
non-dict record) becomes an error result with the file unwritten. -/
def update_session_append_answer (fs : FS) (session_path topic_id question_id : String)
    (original_answer : String) (followup_answer : Option String)
    (completeness : Json) (rating : Option Json) : FS × UpdateResult :=
  let session : Json :=
    match fs session_path with
    | some s => s
    | none => initialSession
  match session with
  | Json.obj kvs =>
    match jLookup kvs "answers" with
    | some (Json.arr answers) =>
      match find_idx topic_id question_id answers 0 with
      | Except.error e => (fs, UpdateResult.error e)
      | Except.ok idx =>
        let record := mkRecord topic_id question_id original_answer
          followup_answer completeness rating
        let newAnswers : List Json :=
          match idx with
          | none => answers ++ [record]
          | some i => answers.set i record
        let session2 := Json.obj (jSetKey kvs "answers" (Json.arr newAnswers))
        (fsSet fs session_path session2, UpdateResult.success session2)
    | some _ => (fs, UpdateResult.error "TypeError: answers is not a list")
    | none => (fs, UpdateResult.error "KeyError: answers")
  | _ => (fs, UpdateResult.error "TypeError: session is not a dict")

/-- JSON insignificant whitespace (RFC 8259, what `json.loads` skips). -/
def isJsonWs (c : Char) : Bool :=
  [' ', '\t', '\n', '\r'].contains c

/-- Numeric value of one decimal digit character. -/
def digitVal (c : Char) : Nat :=
  c.toNat - 48

/-- Value of a digit run, most significant digit first, by accumulation. -/
def digitsValue : List Char → Nat → Nat
  | [], acc => acc
  | c :: cs, acc => digitsValue cs (10 * acc + digitVal c)

/-- Abbreviation applying `digitsValue` with a fresh accumulator. -/
def digitsToNat (ds : List Char) : Nat :=
  digitsValue ds 0

/-- Decodings of the escape letters the model accepts after a backslash in
a JSON string (the repository never relies on \uXXXX escapes, which the
model rejects). -/
def escTable : List (Char × Char) :=
  [('"', '"'), ('\\', '\\'), ('/', '/'), ('n', '\n'), ('t', '\t'),
   ('r', '\r'), ('b', '\x08'), ('f', '\x0c')]

/-- Decoded character for an escape letter, if the letter is legal. -/
def escChar (e : Char) : Option Char :=
  (escTable.find? (fun pc => pc.1 == e)).map (fun pc => pc.2)

/-- Drop an expected literal character sequence from the front of the
input, failing when the input deviates from it. -/
def stripLit : List Char → List Char → Option (List Char)
  | [], cs => some cs
  | _ :: _, [] => none
  | w :: ws, c :: cs => if c = w then stripLit ws cs else none

/-- Characters of a JSON string body up to the closing quote, decoding
escapes; returns the decoded characters and the input after the quote. -/
def parseStringChars : List Char → Option (List Char × List Char)
  | [] => none
  | '"' :: rest => some ([], rest)
  | '\\' :: rest =>
    match rest with
    | [] => none
    | e :: rest2 =>
      match escChar e, parseStringChars rest2 with
      | some c, some (s, r) => some (c :: s, r)
      | _, _ => none
  | c :: rest =>
    match parseStringChars rest with
    | some (s, r) => some (c :: s, r)
    | none => none

mutual

/-- Recursive-descent JSON value parser (fuelled), modelling `json.loads`.
Returns the parsed value and the unconsumed input. -/
def parseValue : Nat → List Char → Option (Json × List Char)
  | 0, _ => none
  | Nat.succ fuel, cs =>
    match cs.dropWhile isJsonWs with
    | [] => none
    | c :: rest =>
      if c = 'n' then
        match stripLit ['u', 'l', 'l'] rest with
        | some r => some (Json.null, r)
        | none => none
      else if c = 't' then
        match stripLit ['r', 'u', 'e'] rest with
        | some r => some (Json.bool true, r)
        | none => none
      else if c = 'f' then
        match stripLit ['a', 'l', 's', 'e'] rest with
        | some r => some (Json.bool false, r)
        | none => none
      else if c = '"' then
        match parseStringChars rest with
        | some (s, r) => some (Json.str (String.mk s), r)
        | none => none
      else if c = '-' then
        match List.span Char.isDigit rest with
        | ([], _) => none
        | (ds, r) => some (Json.int (-(digitsToNat ds : Int)), r)
      else if c.isDigit then
        match List.span Char.isDigit (c :: rest) with
        | (ds, r) => some (Json.int (digitsToNat ds), r)
      else if c = '[' then
        match rest.dropWhile isJsonWs with
        | ']' :: r => some (Json.arr [], r)
        | cs2 =>
          match parseItems fuel cs2 with
          | some (vs, r) => some (Json.arr vs, r)
          | none => none
      else if c = '{' then
        match rest.dropWhile isJsonWs with
        | '}' :: r => some (Json.obj [], r)
        | cs2 =>
          match parseMembers fuel cs2 with
          | some (kvs, r) => some (Json.obj kvs, r)
          | none => none
      else none

/-- One or more comma-separated array items up to the closing bracket. -/
def parseItems : Nat → List Char → Option (List Json × List Char)
  | 0, _ => none
  | Nat.succ fuel, cs =>
    match parseValue fuel cs with
    | none => none
    | some (v, r) =>
      match r.dropWhile isJsonWs with
      | ',' :: r2 =>
        match parseItems fuel r2 with
        | some (vs, r3) => some (v :: vs, r3)
        | none => none
      | ']' :: r2 => some ([v], r2)
      | _ => none

/-- One or more comma-separated object members up to the closing brace. -/
def parseMembers : Nat → List Char → Option (List (String × Json) × List Char)
  | 0, _ => none
  | Nat.succ fuel, cs =>
    match cs.dropWhile isJsonWs with
    | '"' :: r =>
      match parseStringChars r with
      | none => none
      | some (k, r2) =>
        match r2.dropWhile isJsonWs with
        | ':' :: r3 =>
          match parseValue fuel r3 with
          | none => none
          | some (v, r4) =>
            match r4.dropWhile isJsonWs with
            | ',' :: r5 =>
              match parseMembers fuel r5 with
              | some (kvs, r6) => some ((String.mk k, v) :: kvs, r6)
              | none => none
            | '}' :: r5 => some ([(String.mk k, v)], r5)
            | _ => none
        | _ => none
    | _ => none

end

/-- `json.loads` on a whole input string: parse one value and require only
whitespace after it; `none` models a raised `JSONDecodeError`. -/
def json_loads (s : String) : Option Json :=
  match parseValue (s.length + 1) s.toList with
  | some (v, rest) => if rest.dropWhile isJsonWs = [] then some v else none
  | none => none

/-- Result dict of `load_json_file`: `{"status": ..., "data": ...,
"error_message": ...}`. -/
structure LoadResult where
  status : String
  data : Option Json
  error_message : String

/-- `load_json_file` (main_interviewer_agent/agent.py lines 54–78): missing
file yields a tagged error result; an existing file yields its document.
The pair result makes the function's (absent) file-system effect explicit:
the source performs no write, so the returned file system is the input. -/
def load_json_file (fs : FS) (path : String) : FS × LoadResult :=
  match fs path with
  | none => (fs, ⟨"error", none, "File not found: " ++ path⟩)
  | some doc => (fs, ⟨"success", some doc, ""⟩)

/-- Result dict of the save helpers: `{"status": "success", "message":
...}` or `{"status": "error", "error_message": ...}`. -/
structure SaveResult where
  status : String
  message : Option String
  error_message : Option String

/-- `save_json_file` (main_interviewer_agent/agent.py lines 81–103):
validate the string with `json.loads` first; only on success open and
write the file.  The `str(e)` text of the raised `JSONDecodeError` is
modelled by a fixed message. -/
def save_json_file (fs : FS) (data_json : String) (path : String) : FS × SaveResult :=
  match json_loads data_json with
  | some parsed => (fsSet fs path parsed, ⟨"success", some ("Saved to " ++ path), none⟩)
  | none => (fs, ⟨"error", none, some "Invalid JSON"⟩)

/-- `save_questions_to_file` (interview_planner_agent/agent.py lines
18–44): same validate-then-write logic as `save_json_file`. -/
def save_questions_to_file (fs : FS) (questions : String) (filename : String) : FS × SaveResult :=
  match json_loads questions with
  | some data => (fsSet fs filename data, ⟨"success", some ("Saved to " ++ filename), none⟩)
  | none => (fs, ⟨"error", none, some "Invalid JSON"⟩)

/-- The keys of the `agents` dict in server.py (lines 19–26), which are
also the keys of `runners`. -/
def registeredAgents : List String :=
  ["resume_evaluator_agent", "main_interviewer_agent", "interview_planner_agent",
   "answers_completness_evaluator_agent", "answer_rating_evaluator_agent",
   "candidate_evaluator_agent"]

/-- One text part of a request message (server.py `Part`). -/
structure MsgPart where
  text : String

/-- The request message envelope (server.py `NewMessage`). -/
structure NewMessage where
  role : String
  parts : List MsgPart

/-- The request body of `/run` and `/run_sse` (server.py `RunBody`). -/
structure RunBody where
  app_name : String
  userId : String
  sessionId : String
  newMessage : NewMessage

/-- The sessions known to the in-memory session services, as (app, user,
session) triples. -/
abbrev Sessions : Type := List (String × String × String)

/-- `ensure_session` (server.py lines 49–56): create the session if absent,
swallowing the "already exists" error. -/
def ensure_session (ss : Sessions) (app user sess : String) : Sessions :=
  if (app, user, sess) ∈ ss then ss else (app, user, sess) :: ss

/-- Observable outcome of a handler: an HTTP error response, or the
invocation of the named runner with the given turn (the runner itself is
the external agent runtime, outside this repository). -/
inductive RunResponse where
  | httpError : Nat → String → RunResponse
  | invokeRunner : String → String → String → NewMessage → RunResponse

/-- The `/run` handler (server.py lines 60–74): reject an unregistered
`app_name` with HTTP 400 before touching any session; otherwise ensure the
session exists and invoke the runner with the message. -/
def run (ss : Sessions) (body : RunBody) : Sessions × RunResponse :=
  if body.app_name ∈ registeredAgents then
    (ensure_session ss body.app_name body.userId body.sessionId,
     RunResponse.invokeRunner body.app_name body.userId body.sessionId body.newMessage)
  else
    (ss, RunResponse.httpError 400 ("Unknown app_name " ++ body.app_name))

/-- The `/run_sse` handler (server.py lines 76–90): identical dispatch and
session handling; only the response framing (SSE stream) differs. -/
def run_sse (ss : Sessions) (body : RunBody) : Sessions × RunResponse :=
  if body.app_name ∈ registeredAgents then
    (ensure_session ss body.app_name body.userId body.sessionId,
     RunResponse.invokeRunner body.app_name body.userId body.sessionId body.newMessage)
  else
    (ss, RunResponse.httpError 400 ("Unknown app_name " ++ body.app_name))

/-- The (topic_id, question_id) identity of an answer record: present when
both fields are strings, as in every record the merge operation builds. -/
def keyOf (rec : Json) : Option (String × String) :=
  match jGet rec "topic_id", jGet rec "question_id" with
  | some (Json.str t), some (Json.str q) => some (t, q)
  | _, _ => none

/-- At most one record per (topic, question) pair: two distinct positions
never carry the same present key. -/
def NoDupKeys (l : List Json) : Prop :=
  (l.map keyOf).Pairwise (fun x y => x = y → x = none)

theorem recMatches_iff (t q : String) (rec : Json) :
    recMatches t q rec = true ↔ keyOf rec = some (t, q) := by
  unfold recMatches keyOf
  cases h1 : jGet rec "topic_id" with
  | none => simp
  | some v1 =>
    cases h2 : jGet rec "question_id" with
    | none => cases v1 <;> simp
    | some v2 => cases v1 <;> cases v2 <;> simp

theorem keyOf_mkRecord (t q o : String) (f : Option String) (c : Json)
    (r : Option Json) : keyOf (mkRecord t q o f c r) = some (t, q) := rfl

theorem jLookup_jSetKey_self (kvs : List (String × Json)) (k : String) (v : Json) :
    jLookup (jSetKey kvs k v) k = some v := by
  induction kvs with
  | nil => simp [jSetKey, jLookup]
  | cons kv rest ih =>
    obtain ⟨k', w⟩ := kv
    by_cases h : k' = k
    · simp [jSetKey, jLookup, h]
    · simp [jSetKey, jLookup, h, ih]

theorem jLookup_jSetKey_ne (kvs : List (String × Json)) (k k' : String) (v : Json)
    (h : k' ≠ k) : jLookup (jSetKey kvs k v) k' = jLookup kvs k' := by
  induction kvs with
  | nil =>
    have hne : ¬ k = k' := fun hh => h hh.symm
    simp [jSetKey, jLookup, hne]
  | cons kv rest ih =>
    obtain ⟨k'', w⟩ := kv
    by_cases h2 : k'' = k
    · subst h2
      have hne : ¬ k'' = k' := fun hh => h hh.symm
      simp [jSetKey, jLookup, hne]
    · simp [jSetKey, jLookup, h2, ih]

theorem find_idx_ok_none_key (t q : String) :
    ∀ (l : List Json) (i : Nat), find_idx t q l i = Except.ok none →
      ∀ rec ∈ l, keyOf rec ≠ some (t, q) := by
  intro l
  induction l with
  | nil => intro i _ rec h; cases h
  | cons a rest ih =>
    intro i hfind rec hmem
    cases a <;> simp only [find_idx] at hfind <;> try exact Except.noConfusion hfind
    case obj kvs =>
      by_cases hm : recMatches t q (Json.obj kvs) = true
      · simp [hm] at hfind
      · rw [if_neg hm] at hfind
        rcases List.mem_cons.mp hmem with rfl | hmem'
        · intro hk
          exact hm ((recMatches_iff t q _).mpr hk)
        · exact ih (i + 1) hfind rec hmem'

theorem find_idx_ok_some_key (t q : String) :
    ∀ (l : List Json) (i j : Nat), find_idx t q l i = Except.ok (some j) →
      i ≤ j ∧ j - i < l.length ∧ keyOf (l.getD (j - i) Json.null) = some (t, q) := by
  intro l
  induction l with
  | nil => intro i j h; simp [find_idx] at h
  | cons a rest ih =>
    intro i j hfind
    cases a <;> simp only [find_idx] at hfind <;> try exact Except.noConfusion hfind
    case obj kvs =>
      by_cases hm : recMatches t q (Json.obj kvs) = true
      · rw [if_pos hm] at hfind
        have hij : i = j := by
          have := Except.ok.inj hfind
          exact Option.some.inj this
        subst hij
        refine ⟨Nat.le_refl _, by simp, ?_⟩
        simpa [Nat.sub_self, List.getD] using (recMatches_iff t q _).mp hm
      · rw [if_neg hm] at hfind
        obtain ⟨h1, h2, h3⟩ := ih (i + 1) j hfind
        refine ⟨by omega, by simp; omega, ?_⟩
        have hji : j - i = (j - (i + 1)) + 1 := by omega
        rw [hji]
        simpa [List.getD] using h3

theorem find_idx_complete_none (t q : String) :
    ∀ (l : List Json) (i : Nat), (∀ r ∈ l, ∃ kvs, r = Json.obj kvs) →
      (∀ r ∈ l, keyOf r ≠ some (t, q)) → find_idx t q l i = Except.ok none := by
  intro l
  induction l with
  | nil => intro i _ _; rfl
  | cons a rest ih =>
    intro i hobj hkey
    obtain ⟨kvs, rfl⟩ := hobj a (by simp)
    have hm : ¬ recMatches t q (Json.obj kvs) = true :=
      fun hh => hkey _ (by simp) ((recMatches_iff t q _).mp hh)
    simp only [find_idx]
    rw [if_neg hm]
    exact ih (i + 1) (fun r hr => hobj r (by simp [hr]))
      (fun r hr => hkey r (by simp [hr]))

theorem find_idx_complete_some (t q : String) :
    ∀ (l : List Json) (i j : Nat), (∀ r ∈ l, ∃ kvs, r = Json.obj kvs) →
      j < l.length → keyOf (l.getD j Json.null) = some (t, q) →
      (∀ k, k < j → keyOf (l.getD k Json.null) ≠ some (t, q)) →
      find_idx t q l i = Except.ok (some (i + j)) := by
  intro l
  induction l with
  | nil => intro i j _ h; simp at h
  | cons a rest ih =>
    intro i j hobj hj hkey hfirst
    obtain ⟨kvs, rfl⟩ := hobj a (by simp)
    simp only [find_idx]
    cases j with
    | zero =>
      have hm : recMatches t q (Json.obj kvs) = true :=
        (recMatches_iff t q _).mpr (by simpa [List.getD] using hkey)
      rw [if_pos hm]
      simp
    | succ j' =>
      have hm : ¬ recMatches t q (Json.obj kvs) = true := by
        intro hh
        exact hfirst 0 (Nat.succ_pos _) (by simpa [List.getD] using (recMatches_iff t q _).mp hh)
      rw [if_neg hm]
      have hrec := ih (i + 1) j' (fun r hr => hobj r (by simp [hr]))
        (by simpa using hj) (by simpa [List.getD] using hkey)
        (fun k hk => by simpa [List.getD] using hfirst (k + 1) (by omega))
      rw [hrec]
      have : i + 1 + j' = i + (j' + 1) := by omega
      rw [this]

theorem find_idx_ok_of_objs (t q : String) :
    ∀ (l : List Json) (i : Nat), (∀ r ∈ l, ∃ kvs, r = Json.obj kvs) →
      ∃ o, find_idx t q l i = Except.ok o := by
  intro l
  induction l with
  | nil => intro i _; exact ⟨none, rfl⟩
  | cons a rest ih =>
    intro i hobj
    obtain ⟨kvs, rfl⟩ := hobj a (by simp)
    simp only [find_idx]
    by_cases hm : recMatches t q (Json.obj kvs) = true
    · exact ⟨some i, by rw [if_pos hm]⟩
    · obtain ⟨o, ho⟩ := ih (i + 1) (fun r hr => hobj r (by simp [hr]))
      exact ⟨o, by rw [if_neg hm]; exact ho⟩

theorem set_getD_self {α : Type} (d : α) :
    ∀ (l : List α) (n : Nat), n < l.length → l.set n (l.getD n d) = l := by
  intro l
  induction l with
  | nil => intro n h; simp at h
  | cons a rest ih =>
    intro n h
    cases n with
    | zero => simp [List.getD]
    | succ n' =>
      have h' : n' < rest.length := by simpa using h
      show a :: rest.set n' ((a :: rest).getD (n' + 1) d) = a :: rest
      have hgd : (a :: rest).getD (n' + 1) d = rest.getD n' d := by simp [List.getD]
      rw [hgd, ih n' h']

theorem noDupKeys_nil : NoDupKeys [] := by simp [NoDupKeys]

theorem noDupKeys_singleton (rec : Json) : NoDupKeys [rec] := by
  simp [NoDupKeys]

theorem noDupKeys_append (l : List Json) (rec : Json) (p : String × String)
    (h : NoDupKeys l) (hk : ∀ r ∈ l, keyOf r ≠ some p) (hrec : keyOf rec = some p) :
    NoDupKeys (l ++ [rec]) := by
  unfold NoDupKeys at *
  rw [List.map_append, List.pairwise_append]
  refine ⟨h, by simp, ?_⟩
  intro x hx y hy
  simp only [List.map_cons, List.map_nil, List.mem_singleton] at hy
  obtain ⟨r, hr, rfl⟩ := List.mem_map.mp hx
  intro heq
  exact absurd (heq.trans (hy ▸ hrec)) (hk r hr)

theorem noDupKeys_set (l : List Json) (j : Nat) (rec : Json)
    (h : NoDupKeys l) (hj : j < l.length)
    (hkey : keyOf (l.getD j Json.null) = keyOf rec) :
    NoDupKeys (l.set j rec) := by
  unfold NoDupKeys at *
  rw [List.map_set]
  have hgd : (l.map keyOf).getD j none = keyOf rec := by
    rw [List.getD_eq_getElem?_getD, List.getElem?_eq_getElem (by simpa using hj)]
    simp only [List.getElem_map, Option.getD_some]
    rw [← hkey]
    rw [List.getD_eq_getElem?_getD, List.getElem?_eq_getElem hj]
    rfl
  rw [← hgd]
  rw [set_getD_self none (l.map keyOf) j (by simpa using hj)]
  exact h

theorem getD_map_keyOf (l : List Json) (n : Nat) (hn : n < l.length) :
    (l.map keyOf).getD n none = keyOf (l.getD n Json.null) := by
  simp [List.getD_eq_getElem?_getD, List.getElem?_eq_getElem, hn]

theorem getD_eq_get_map_keyOf (l : List Json) (n : Nat)
    (hn : n < (l.map keyOf).length) :
    (l.map keyOf).getD n none = (l.map keyOf).get ⟨n, hn⟩ := by
  rw [List.getD_eq_getElem?_getD, List.getElem?_eq_getElem hn, List.get_eq_getElem]
  rfl

theorem noDupKeys_unique (l : List Json) (h : NoDupKeys l) (j k : Nat)
    (p : String × String) (hj : j < l.length) (hk : k < l.length) (hne : k ≠ j)
    (hpj : keyOf (l.getD j Json.null) = some p) :
    keyOf (l.getD k Json.null) ≠ some p := by
  unfold NoDupKeys at h
  rw [List.pairwise_iff_get] at h
  intro hpk
  have hj2 : j < (l.map keyOf).length := by simpa using hj
  have hk2 : k < (l.map keyOf).length := by simpa using hk
  have hgj : (l.map keyOf).get ⟨j, hj2⟩ = some p := by
    rw [← getD_eq_get_map_keyOf l j hj2, getD_map_keyOf l j hj]
    exact hpj
  have hgk : (l.map keyOf).get ⟨k, hk2⟩ = some p := by
    rw [← getD_eq_get_map_keyOf l k hk2, getD_map_keyOf l k hk]
    exact hpk
  rcases Nat.lt_or_ge k j with hlt | hge
  · have hR := h ⟨k, hk2⟩ ⟨j, hj2⟩ (by simpa [Fin.lt_def] using hlt)
    have hcon := hR (hgk.trans hgj.symm)
    rw [hgk] at hcon
    exact Option.noConfusion hcon
  · have hlt2 : j < k := by omega
    have hR := h ⟨j, hj2⟩ ⟨k, hk2⟩ (by simpa [Fin.lt_def] using hlt2)
    have hcon := hR (hgj.trans hgk.symm)
    rw [hgj] at hcon
    exact Option.noConfusion hcon

theorem fsSet_self (fs : FS) (path : String) (v : Json) :
    fsSet fs path v path = some v := by
  simp [fsSet]

theorem fsSet_ne (fs : FS) (path q : String) (v : Json) (h : q ≠ path) :
    fsSet fs path v q = fs q := by
  simp [fsSet, h]

/-- Behaviour of the merge when the session file is missing: the initial
session is created and the single new record appended. -/
theorem update_missing_eq (fs : FS) (path t q o : String) (f : Option String)
    (c : Json) (r : Option Json) (hfs : fs path = none) :
    update_session_append_answer fs path t q o f c r =
      (fsSet fs path (Json.obj [
         ("current_topic_index", Json.int 0),
         ("asked_followup_for_topic", Json.obj []),
         ("answers", Json.arr [mkRecord t q o f c r])]),
       UpdateResult.success (Json.obj [
         ("current_topic_index", Json.int 0),
         ("asked_followup_for_topic", Json.obj []),
         ("answers", Json.arr [mkRecord t q o f c r])])) := by
  unfold update_session_append_answer
  rw [hfs]
  rfl

/-- Behaviour of the merge when the session exists and no record matches:
the new record is appended at the end. -/
theorem update_notfound_eq (fs : FS) (path t q o : String) (f : Option String)
    (c : Json) (r : Option Json) (kvs : List (String × Json)) (l : List Json)
    (hfs : fs path = some (Json.obj kvs))
    (ha : jLookup kvs "answers" = some (Json.arr l))
    (hfind : find_idx t q l 0 = Except.ok none) :
    update_session_append_answer fs path t q o f c r =
      (fsSet fs path (Json.obj (jSetKey kvs "answers"
         (Json.arr (l ++ [mkRecord t q o f c r])))),
       UpdateResult.success (Json.obj (jSetKey kvs "answers"
         (Json.arr (l ++ [mkRecord t q o f c r]))))) := by
  unfold update_session_append_answer
  rw [hfs]
  simp only [ha, hfind]

/-- Behaviour of the merge when a record matches at position `j`: that
record is overwritten in place. -/
theorem update_found_eq (fs : FS) (path t q o : String) (f : Option String)
    (c : Json) (r : Option Json) (kvs : List (String × Json)) (l : List Json)
    (j : Nat) (hfs : fs path = some (Json.obj kvs))
    (ha : jLookup kvs "answers" = some (Json.arr l))
    (hfind : find_idx t q l 0 = Except.ok (some j)) :
    update_session_append_answer fs path t q o f c r =
      (fsSet fs path (Json.obj (jSetKey kvs "answers"
         (Json.arr (l.set j (mkRecord t q o f c r))))),
       UpdateResult.success (Json.obj (jSetKey kvs "answers"
         (Json.arr (l.set j (mkRecord t q o f c r)))))) := by
  unfold update_session_append_answer
  rw [hfs]
  simp only [ha, hfind]

/-- One merge call of a call sequence: its inputs other than the file
system and the session path. -/
structure MergeCall where
  topic_id : String
  question_id : String
  original_answer : String
  followup_answer : Option String
  completeness : Json
  rating : Option Json

/-- The file system after one merge call. -/
def mergeStep (path : String) (fs : FS) (mc : MergeCall) : FS :=
  (update_session_append_answer fs path mc.topic_id mc.question_id
    mc.original_answer mc.followup_answer mc.completeness mc.rating).1

/-- The file system after a sequence of merge calls against one path. -/
def runMerges (fs : FS) (path : String) (calls : List MergeCall) : FS :=
  calls.foldl (mergeStep path) fs

/-- Invariant: whatever session document the file at `path` holds, its
answers list has no duplicate (topic, question) pairs. -/
def SessionAnswersOK (fs : FS) (path : String) : Prop :=
  ∀ kvs l, fs path = some (Json.obj kvs) →
    jLookup kvs "answers" = some (Json.arr l) → NoDupKeys l

theorem update_preserves_ok (fs : FS) (path t q o : String) (f : Option String)
    (c : Json) (r : Option Json) (h : SessionAnswersOK fs path) :
    SessionAnswersOK (update_session_append_answer fs path t q o f c r).1 path := by
  cases hfs : fs path with
  | none =>
    rw [update_missing_eq fs path t q o f c r hfs]
    intro kvs' l' h1 h2
    dsimp only at h1
    rw [fsSet_self] at h1
    obtain rfl : _ = kvs' := Json.obj.inj (Option.some.inj h1)
    simp [jLookup] at h2
    subst h2
    exact noDupKeys_singleton _
  | some s =>
    cases s with
    | obj kvs =>
      cases ha : jLookup kvs "answers" with
      | none =>
        unfold update_session_append_answer
        rw [hfs]
        simp only [ha]
        exact h
      | some v =>
        cases v with
        | arr l =>
          have hdup : NoDupKeys l := h kvs l hfs ha
          cases hfind : find_idx t q l 0 with
          | error e =>
            unfold update_session_append_answer
            rw [hfs]
            simp only [ha, hfind]
            exact h
          | ok idx =>
            cases idx with
            | none =>
              rw [update_notfound_eq fs path t q o f c r kvs l hfs ha hfind]
              intro kvs' l' h1 h2
              dsimp only at h1
              rw [fsSet_self] at h1
              obtain rfl : _ = kvs' := Json.obj.inj (Option.some.inj h1)
              rw [jLookup_jSetKey_self] at h2
              obtain rfl : _ = l' := Json.arr.inj (Option.some.inj h2)
              exact noDupKeys_append l _ (t, q) hdup
                (find_idx_ok_none_key t q l 0 hfind) (keyOf_mkRecord t q o f c r)
            | some j =>
              obtain ⟨-, hlen, hkey⟩ := find_idx_ok_some_key t q l 0 j hfind
              rw [Nat.sub_zero] at hlen hkey
              rw [update_found_eq fs path t q o f c r kvs l j hfs ha hfind]
              intro kvs' l' h1 h2
              dsimp only at h1
              rw [fsSet_self] at h1
              obtain rfl : _ = kvs' := Json.obj.inj (Option.some.inj h1)
              rw [jLookup_jSetKey_self] at h2
              obtain rfl : _ = l' := Json.arr.inj (Option.some.inj h2)
              exact noDupKeys_set l j _ hdup hlen
                (hkey.trans (keyOf_mkRecord t q o f c r).symm)
        | null =>
          unfold update_session_append_answer
          rw [hfs]
          simp only [ha]
          exact h
        | bool b =>
          unfold update_session_append_answer
          rw [hfs]
          simp only [ha]
          exact h
        | int n =>
          unfold update_session_append_answer
          rw [hfs]
          simp only [ha]
          exact h
        | str s' =>
          unfold update_session_append_answer
          rw [hfs]
          simp only [ha]
          exact h
        | obj kvs2 =>
          unfold update_session_append_answer
          rw [hfs]
          simp only [ha]
          exact h
    | null =>
      unfold update_session_append_answer
      rw [hfs]
      exact h
    | bool b =>
      unfold update_session_append_answer
      rw [hfs]
      exact h
    | int n =>
      unfold update_session_append_answer
      rw [hfs]
      exact h
    | str s' =>
      unfold update_session_append_answer
      rw [hfs]
      exact h
    | arr l =>
      unfold update_session_append_answer
      rw [hfs]
      exact h

theorem runMerges_ok (path : String) (calls : List MergeCall) :
    ∀ fs : FS, SessionAnswersOK fs path →
      SessionAnswersOK (runMerges fs path calls) path := by
  induction calls with
  | nil => intro fs h; exact h
  | cons mc rest ih =>
    intro fs h
    exact ih (mergeStep path fs mc)
      (update_preserves_ok fs path mc.topic_id mc.question_id mc.original_answer
        mc.followup_answer mc.completeness mc.rating h)

/-- C1, counterexample: with original answer " A " and no follow-up the
stored `final_answer` is the stripped "A", not the original " A "
unchanged — the source strips in the no-follow-up branch too. -/
theorem c1_counterexample :
    jGet (mkRecord "T1" "Q1" " A " none (Json.obj []) none) "final_answer"
        = some (Json.str "A") ∧
    jGet (mkRecord "T1" "Q1" " A " none (Json.obj []) none) "final_answer"
        ≠ some (Json.str " A ") := by
  refine ⟨rfl, ?_⟩
  intro h
  rw [show jGet (mkRecord "T1" "Q1" " A " none (Json.obj []) none) "final_answer"
      = some (Json.str "A") from rfl] at h
  exact absurd (Json.str.inj (Option.some.inj h)) (by decide)

/-- C1 (amended): when a non-empty follow-up is supplied the record's
`final_answer` is `trim(original ++ "\n\n" ++ followup)`; when no
follow-up is supplied it is `trim(original)` — the trim applies in both
branches. -/
theorem c1_final_answer (t q orig : String) (f : Option String) (c : Json)
    (r : Option Json) :
    (∀ s, f = some s → s ≠ "" →
      jGet (mkRecord t q orig f c r) "final_answer"
        = some (Json.str (pyStrip (orig ++ "\n\n" ++ s)))) ∧
    (f = none →
      jGet (mkRecord t q orig f c r) "final_answer"
        = some (Json.str (pyStrip orig))) := by
  constructor
  · rintro s rfl hs
    have hb : (s == "") = false := by simpa using hs
    simp [mkRecord, jGet, jLookup, pyFalsy, hb]
  · rintro rfl
    rfl

theorem c1_witness :
    jGet (mkRecord "T" "Q" " a " (some "b") (Json.obj []) none) "final_answer"
        = some (Json.str (pyStrip (" a " ++ "\n\n" ++ "b"))) ∧
    jGet (mkRecord "T" "Q" " a " none (Json.obj []) none) "final_answer"
        = some (Json.str (pyStrip " a ")) :=
  ⟨(c1_final_answer "T" "Q" " a " (some "b") (Json.obj []) none).1 "b" rfl (by decide),
   (c1_final_answer "T" "Q" " a " none (Json.obj []) none).2 rfl⟩

/-- C9: an empty-string follow-up is falsy in Python, so the record is
built as if no follow-up existed: `final_answer` is the stripped original
with no separator, while the stored `followup_answer` field keeps the
empty string. -/
theorem c9_empty_string_followup (t q orig : String) (c : Json) (r : Option Json) :
    jGet (mkRecord t q orig (some "") c r) "final_answer"
        = some (Json.str (pyStrip orig)) ∧
    jGet (mkRecord t q orig (some "") c r) "followup_answer"
        = some (Json.str "") :=
  ⟨rfl, rfl⟩

/-- C3: a string accepted by `json.loads` and saved with `save_json_file`
is read back by `load_json_file` at the same path as a success result
carrying the parsed document. -/
theorem c3_save_load_roundtrip (fs : FS) (s path : String) (doc : Json)
    (h : json_loads s = some doc) :
    (load_json_file (save_json_file fs s path).1 path).2
      = ⟨"success", some doc, ""⟩ := by
  unfold save_json_file load_json_file
  rw [h]
  dsimp only
  rw [fsSet_self]

theorem c3_witness :
    (load_json_file (save_json_file emptyFS "[1, null]" "plan.json").1 "plan.json").2
      = ⟨"success", some (Json.arr [Json.int 1, Json.null]), ""⟩ :=
  c3_save_load_roundtrip emptyFS "[1, null]" "plan.json"
    (Json.arr [Json.int 1, Json.null]) rfl

/-- C4: a string rejected by `json.loads` makes `save_json_file` and
`save_questions_to_file` return an error result with the file system
untouched — validation happens before any write. -/
theorem c4_invalid_no_mutation (fs : FS) (s path fn : String)
    (h : json_loads s = none) :
    save_json_file fs s path = (fs, ⟨"error", none, some "Invalid JSON"⟩) ∧
    save_questions_to_file fs s fn = (fs, ⟨"error", none, some "Invalid JSON"⟩) := by
  unfold save_json_file save_questions_to_file
  rw [h]
  exact ⟨rfl, rfl⟩

theorem c4_witness :
    save_json_file emptyFS "[" "x.json" = (emptyFS, ⟨"error", none, some "Invalid JSON"⟩) ∧
    save_questions_to_file emptyFS "[" "y.json"
      = (emptyFS, ⟨"error", none, some "Invalid JSON"⟩) :=
  c4_invalid_no_mutation emptyFS "[" "x.json" "y.json" rfl

/-- C5: loading a path with no file returns the tagged not-found error
result and leaves the file system untouched — no exception, no default
document created on disk. -/
theorem c5_load_missing (fs : FS) (path : String) (h : fs path = none) :
    load_json_file fs path = (fs, ⟨"error", none, "File not found: " ++ path⟩) := by
  unfold load_json_file
  rw [h]

theorem c5_witness :
    load_json_file emptyFS "missing.json"
      = (emptyFS, ⟨"error", none, "File not found: " ++ "missing.json"⟩) :=
  c5_load_missing emptyFS "missing.json" rfl

/-- C6: end-to-end scenario from no session file: merging T1/Q1 with
answer "A" stores exactly one record with final answer "A"; merging
T1/Q1 again with "B" still stores exactly one record, now with "B",
replacing the first in place rather than appending. -/
theorem c6_scenario :
    ((update_session_append_answer emptyFS "interview_session.json" "T1" "Q1" "A" none
        (Json.obj [("completeness", Json.str "complete")]) none).1 "interview_session.json"
      = some (Json.obj [
          ("current_topic_index", Json.int 0),
          ("asked_followup_for_topic", Json.obj []),
          ("answers", Json.arr [mkRecord "T1" "Q1" "A" none
            (Json.obj [("completeness", Json.str "complete")]) none])])) ∧
    jGet (mkRecord "T1" "Q1" "A" none (Json.obj [("completeness", Json.str "complete")]) none)
        "final_answer" = some (Json.str "A") ∧
    ((update_session_append_answer
        (update_session_append_answer emptyFS "interview_session.json" "T1" "Q1" "A" none
          (Json.obj [("completeness", Json.str "complete")]) none).1
        "interview_session.json" "T1" "Q1" "B" none
        (Json.obj [("completeness", Json.str "complete")]) none).1 "interview_session.json"
      = some (Json.obj [
          ("current_topic_index", Json.int 0),
          ("asked_followup_for_topic", Json.obj []),
          ("answers", Json.arr [mkRecord "T1" "Q1" "B" none
            (Json.obj [("completeness", Json.str "complete")]) none])])) ∧
    jGet (mkRecord "T1" "Q1" "B" none (Json.obj [("completeness", Json.str "complete")]) none)
        "final_answer" = some (Json.str "B") :=
  ⟨rfl, rfl, rfl, rfl⟩

/-- C7: a merge against a missing session file first initialises the
empty session (cursor 0, empty follow-up map, empty answers) and then
merges, so the stored and returned session has cursor 0, an empty
follow-up map, and exactly the one new record. -/
theorem c7_init_on_missing (fs : FS) (path t q orig : String) (f : Option String)
    (c : Json) (r : Option Json) (h : fs path = none) :
    ∃ s2, update_session_append_answer fs path t q orig f c r
        = (fsSet fs path s2, UpdateResult.success s2) ∧
      jGet s2 "current_topic_index" = some (Json.int 0) ∧
      jGet s2 "asked_followup_for_topic" = some (Json.obj []) ∧
      jGet s2 "answers" = some (Json.arr [mkRecord t q orig f c r]) :=
  ⟨_, update_missing_eq fs path t q orig f c r h, rfl, rfl, rfl⟩

theorem c7_witness :
    ∃ s2, update_session_append_answer emptyFS "interview_session.json"
          "T1" "Q1" "A" none Json.null none
        = (fsSet emptyFS "interview_session.json" s2, UpdateResult.success s2) ∧
      jGet s2 "current_topic_index" = some (Json.int 0) ∧
      jGet s2 "asked_followup_for_topic" = some (Json.obj []) ∧
      jGet s2 "answers" = some (Json.arr [mkRecord "T1" "Q1" "A" none Json.null none]) :=
  c7_init_on_missing emptyFS "interview_session.json" "T1" "Q1" "A" none Json.null none rfl

/-- C8: both handlers reject an unregistered agent name with HTTP 400 and
an unchanged session store, and for a registered name they proceed to
ensure the session and invoke the runner whatever the rest of the body
holds — no other validation. -/
theorem c8_agent_dispatch (ss : Sessions) (body : RunBody) :
    (body.app_name ∉ registeredAgents →
      run ss body = (ss, RunResponse.httpError 400 ("Unknown app_name " ++ body.app_name)) ∧
      run_sse ss body
        = (ss, RunResponse.httpError 400 ("Unknown app_name " ++ body.app_name))) ∧
    (body.app_name ∈ registeredAgents →
      run ss body = (ensure_session ss body.app_name body.userId body.sessionId,
        RunResponse.invokeRunner body.app_name body.userId body.sessionId body.newMessage) ∧
      run_sse ss body = (ensure_session ss body.app_name body.userId body.sessionId,
        RunResponse.invokeRunner body.app_name body.userId body.sessionId body.newMessage)) := by
  constructor
  · intro h
    constructor <;> simp [run, run_sse, h]
  · intro h
    constructor <;> simp [run, run_sse, h]

theorem c8_witness :
    (run [] ⟨"foo", "u", "s", ⟨"user", []⟩⟩
      = ([], RunResponse.httpError 400 ("Unknown app_name " ++ "foo"))) ∧
    (run_sse [] ⟨"foo", "u", "s", ⟨"user", []⟩⟩
      = ([], RunResponse.httpError 400 ("Unknown app_name " ++ "foo"))) ∧
    (run [] ⟨"main_interviewer_agent", "u", "s", ⟨"user", []⟩⟩
      = (ensure_session [] "main_interviewer_agent" "u" "s",
         RunResponse.invokeRunner "main_interviewer_agent" "u" "s" ⟨"user", []⟩)) :=
  ⟨((c8_agent_dispatch [] ⟨"foo", "u", "s", ⟨"user", []⟩⟩).1 (by decide)).1,
   ((c8_agent_dispatch [] ⟨"foo", "u", "s", ⟨"user", []⟩⟩).1 (by decide)).2,
   ((c8_agent_dispatch [] ⟨"main_interviewer_agent", "u", "s", ⟨"user", []⟩⟩).2 (by decide)).1⟩

/-- C10: merging into an existing well-formed session rewrites only the
"answers" entry: every other top-level key of the session keeps its value
in both the stored and the returned session document. -/
theorem c10_frame_other_keys (fs : FS) (path t q orig : String) (f : Option String)
    (c : Json) (r : Option Json) (kvs : List (String × Json)) (l : List Json)
    (hfs : fs path = some (Json.obj kvs))
    (ha : jLookup kvs "answers" = some (Json.arr l))
    (hobj : ∀ rec ∈ l, ∃ kvs', rec = Json.obj kvs') :
    ∃ newKvs,
      (update_session_append_answer fs path t q orig f c r).1 path
          = some (Json.obj newKvs) ∧
      (update_session_append_answer fs path t q orig f c r).2
          = UpdateResult.success (Json.obj newKvs) ∧
      ∀ k, k ≠ "answers" → jLookup newKvs k = jLookup kvs k := by
  obtain ⟨o, ho⟩ := find_idx_ok_of_objs t q l 0 hobj
  cases o with
  | none =>
    refine ⟨jSetKey kvs "answers" (Json.arr (l ++ [mkRecord t q orig f c r])), ?_, ?_, ?_⟩
    · rw [update_notfound_eq fs path t q orig f c r kvs l hfs ha ho]
      dsimp only
      rw [fsSet_self]
    · rw [update_notfound_eq fs path t q orig f c r kvs l hfs ha ho]
    · intro k hk
      exact jLookup_jSetKey_ne kvs "answers" k _ hk
  | some j =>
    refine ⟨jSetKey kvs "answers" (Json.arr (l.set j (mkRecord t q orig f c r))), ?_, ?_, ?_⟩
    · rw [update_found_eq fs path t q orig f c r kvs l j hfs ha ho]
      dsimp only
      rw [fsSet_self]
    · rw [update_found_eq fs path t q orig f c r kvs l j hfs ha ho]
    · intro k hk
      exact jLookup_jSetKey_ne kvs "answers" k _ hk

theorem c10_witness :
    ∃ newKvs,
      (update_session_append_answer
          (fsSet emptyFS "s.json" (Json.obj [
            ("current_topic_index", Json.int 3),
            ("extra", Json.str "keepme"),
            ("answers", Json.arr [])]))
          "s.json" "T1" "Q1" "A" none Json.null none).1 "s.json"
          = some (Json.obj newKvs) ∧
      (update_session_append_answer
          (fsSet emptyFS "s.json" (Json.obj [
            ("current_topic_index", Json.int 3),
            ("extra", Json.str "keepme"),
            ("answers", Json.arr [])]))
          "s.json" "T1" "Q1" "A" none Json.null none).2
          = UpdateResult.success (Json.obj newKvs) ∧
      ∀ k, k ≠ "answers" →
        jLookup newKvs k = jLookup [
            ("current_topic_index", Json.int 3),
            ("extra", Json.str "keepme"),
            ("answers", Json.arr [])] k :=
  c10_frame_other_keys
    (fsSet emptyFS "s.json" (Json.obj [
      ("current_topic_index", Json.int 3),
      ("extra", Json.str "keepme"),
      ("answers", Json.arr [])]))
    "s.json" "T1" "Q1" "A" none Json.null none
    [("current_topic_index", Json.int 3), ("extra", Json.str "keepme"),
     ("answers", Json.arr [])] [] rfl rfl (by simp)

/-- C2: from a missing or empty session, after every prefix of a merge
sequence the answers list has no duplicate (topic, question) pairs;
moreover a merge overwrites in place (via `List.set`, preserving the
matching record's position) exactly when a record with the pair exists,
and appends exactly when none does. -/
theorem c2_no_duplicate_pairs (fs0 : FS) (path : String) (calls : List MergeCall)
    (hinit : fs0 path = none ∨
      ∃ kvs, fs0 path = some (Json.obj kvs) ∧
        jLookup kvs "answers" = some (Json.arr [])) :
    (∀ n kvs l, runMerges fs0 path (calls.take n) path = some (Json.obj kvs) →
        jLookup kvs "answers" = some (Json.arr l) → NoDupKeys l) ∧
    (∀ (fs : FS) (kvs : List (String × Json)) (l : List Json) (mc : MergeCall) (j : Nat),
        fs path = some (Json.obj kvs) → jLookup kvs "answers" = some (Json.arr l) →
        (∀ rec ∈ l, ∃ kvs', rec = Json.obj kvs') → NoDupKeys l →
        j < l.length → keyOf (l.getD j Json.null) = some (mc.topic_id, mc.question_id) →
        mergeStep path fs mc path = some (Json.obj (jSetKey kvs "answers" (Json.arr
          (l.set j (mkRecord mc.topic_id mc.question_id mc.original_answer
            mc.followup_answer mc.completeness mc.rating)))))) ∧
    (∀ (fs : FS) (kvs : List (String × Json)) (l : List Json) (mc : MergeCall),
        fs path = some (Json.obj kvs) → jLookup kvs "answers" = some (Json.arr l) →
        (∀ rec ∈ l, ∃ kvs', rec = Json.obj kvs') →
        (∀ rec ∈ l, keyOf rec ≠ some (mc.topic_id, mc.question_id)) →
        mergeStep path fs mc path = some (Json.obj (jSetKey kvs "answers" (Json.arr
          (l ++ [mkRecord mc.topic_id mc.question_id mc.original_answer
            mc.followup_answer mc.completeness mc.rating]))))) := by
  have hOK : SessionAnswersOK fs0 path := by
    rcases hinit with h | ⟨kvs, h1, h2⟩
    · intro kvs' l' hx _
      rw [h] at hx
      exact Option.noConfusion hx
    · intro kvs' l' hx hy
      rw [h1] at hx
      obtain rfl : kvs = kvs' := Json.obj.inj (Option.some.inj hx)
      rw [h2] at hy
      obtain rfl : ([] : List Json) = l' := Json.arr.inj (Option.some.inj hy)
      exact noDupKeys_nil
  refine ⟨?_, ?_, ?_⟩
  · intro n kvs l hx hy
    exact runMerges_ok path (calls.take n) fs0 hOK kvs l hx hy
  · intro fs kvs l mc j hfs ha hobjs hdup hj hkey
    have hfirst : ∀ k, k < j →
        keyOf (l.getD k Json.null) ≠ some (mc.topic_id, mc.question_id) :=
      fun k hk =>
        noDupKeys_unique l hdup j k (mc.topic_id, mc.question_id) hj
          (by omega) (by omega) hkey
    have hfind := find_idx_complete_some mc.topic_id mc.question_id l 0 j
      hobjs hj hkey hfirst
    rw [Nat.zero_add] at hfind
    unfold mergeStep
    rw [update_found_eq fs path mc.topic_id mc.question_id mc.original_answer
      mc.followup_answer mc.completeness mc.rating kvs l j hfs ha hfind]
    dsimp only
    rw [fsSet_self]
  · intro fs kvs l mc hfs ha hobjs hkeys
    have hfind := find_idx_complete_none mc.topic_id mc.question_id l 0 hobjs hkeys
    unfold mergeStep
    rw [update_notfound_eq fs path mc.topic_id mc.question_id mc.original_answer
      mc.followup_answer mc.completeness mc.rating kvs l hfs ha hfind]
    dsimp only
    rw [fsSet_self]

theorem c2_witness :
    NoDupKeys [mkRecord "T1" "Q1" "B" none Json.null none] :=
  (c2_no_duplicate_pairs emptyFS "s.json"
      [⟨"T1", "Q1", "A", none, Json.null, none⟩,
       ⟨"T1", "Q1", "B", none, Json.null, none⟩] (Or.inl rfl)).1 2
    [("current_topic_index", Json.int 0),
     ("asked_followup_for_topic", Json.obj []),
     ("answers", Json.arr [mkRecord "T1" "Q1" "B" none Json.null none])]
    [mkRecord "T1" "Q1" "B" none Json.null none] rfl rfl
